import Mathlib

/-!
go-minecraft: shapes, entities and their validations

A shallow embedding of `validations.go`, `helper_types.go`, `shape.go` and
`entity.go`, followed by theorems about the embedded functions.

Conventions of the embedding

* a Go pointer `*T` is an `Option T` (`none` is the nil pointer) and `&x` is `some x`;
* a Go `error` built with `errors.New msg` is the string `msg`, and a nil error is `none`;
* a value of type `interface{}` is a `Value`;
* Go's `int` is `Int` (the code does no arithmetic on it);
* a function that can panic, or whose body can reach its end without a
  `return`, yields an `Outcome`;
* the transport (`client.newRequest`, `client.do`) is a record of functions
  over an abstract transport state, and every call to it is appended to a log.
-/

set_option autoImplicit false

namespace Minecraft

/-! ## helper_types.go -/

/-- Location represents an in game location. -/
structure Location where
  X : Int
  Y : Int
  Z : Int
  World : String
  deriving DecidableEq, Repr

/-- NewLocation is a constructor for Location. -/
def NewLocation (x y z : Int) (world : String) : Option Location :=
  some { X := x, Y := y, Z := z, World := world }

/-- ResourceStatus represents a resource's status. -/
abbrev ResourceStatus := String

def ResourceStatusInitializing : ResourceStatus := "initializing"
def ResourceStatusReady : ResourceStatus := "ready"
def ResourceStatusDeleting : ResourceStatus := "deleting"
def ResourceStatusUpdating : ResourceStatus := "updating"

/-- Go `error` values; every error of these files is made by `errors.New`. -/
abbrev Error := String

/-! ## regexp: the fragment used by `reStringID` -/

/-- Regular expressions over runes: the operators the pattern of `reStringID` is parsed into,
closed under derivatives. A character class is a list of inclusive rune ranges. -/
inductive Regex where
  | empty : Regex
  | eps : Regex
  | cls (ranges : List (Char × Char)) : Regex
  | seq (a b : Regex) : Regex
  | alt (a b : Regex) : Regex
  | star (r : Regex) : Regex
  deriving Repr

namespace Regex

/-- One or more repetitions, `r+`. -/
def plus (r : Regex) : Regex := seq r (star r)

/-- Membership of a rune in a character class. -/
def inRanges (ranges : List (Char × Char)) (c : Char) : Bool :=
  ranges.any fun lohi => decide (lohi.1.toNat ≤ c.toNat) && decide (c.toNat ≤ lohi.2.toNat)

/-- Whether the expression matches the empty text. -/
def nullable : Regex → Bool
  | empty => false
  | eps => true
  | cls _ => false
  | seq a b => nullable a && nullable b
  | alt a b => nullable a || nullable b
  | star _ => true

/-- Brzozowski derivative: what remains to be matched after reading `c`. -/
def deriv : Regex → Char → Regex
  | empty, _ => empty
  | eps, _ => empty
  | cls ranges, c => if inRanges ranges c then eps else empty
  | seq a b, c =>
      if nullable a then alt (seq (deriv a c) b) (deriv b c) else seq (deriv a c) b
  | alt a b, c => alt (deriv a c) (deriv b c)
  | star r, c => seq (deriv r c) (star r)

/-- Whether the expression matches the whole of the text. -/
def fullMatch (r : Regex) (text : List Char) : Bool :=
  nullable (text.foldl deriv r)

/-- The texts an expression denotes; the reference the derivative matcher is checked
against. -/
inductive Matches : Regex → List Char → Prop
  | eps : Matches eps []
  | cls {ranges : List (Char × Char)} {c : Char} :
      inRanges ranges c = true → Matches (cls ranges) [c]
  | seq {a b : Regex} {s t : List Char} :
      Matches a s → Matches b t → Matches (seq a b) (s ++ t)
  | altL {a b : Regex} {s : List Char} : Matches a s → Matches (alt a b) s
  | altR {a b : Regex} {s : List Char} : Matches b s → Matches (alt a b) s
  | starNil {r : Regex} : Matches (star r) []
  | starCons {r : Regex} {s t : List Char} :
      Matches r s → Matches (star r) t → Matches (star r) (s ++ t)

end Regex

/-- A compiled pattern: `^` and `$` (without the multi-line flag they stand for the beginning
and the end of the text) around a body. -/
structure Regexp where
  beginText : Bool
  body : Regex
  endText : Bool

/-- The method `MatchString` of a compiled pattern: whether the text holds a match. A match
is a piece of the text matched by the body, starting at the beginning of the text when the
pattern is anchored with `^` and ending at its end when anchored with `$`. -/
def Regexp.MatchString (re : Regexp) (s : String) : Bool :=
  (if re.beginText then [s.toList] else s.toList.tails).any fun t =>
    (if re.endText then [t] else t.inits).any fun u => re.body.fullMatch u

/-! ## validations.go -/

/-- A regular expression used to validate common string ID patterns:
the pattern is `^[a-zA-Z0-9\-\._]+$`. -/
def reStringID : Regexp :=
  { beginText := true
    body := Regex.plus
      (Regex.cls [('a', 'z'), ('A', 'Z'), ('0', '9'), ('-', '-'), ('.', '.'), ('_', '_')])
    endText := true }

/-- validString checks if the given input is present and non-empty. -/
def validString (v : Option String) : Bool :=
  match v with
  | none => false
  | some s => s != ""

/-- validLocation checks if the given input is present. -/
def validLocation (l : Option Location) : Bool :=
  l.isSome

/-- validStringID checks if the given string pointer is non-nil and
contains a typical string identifier. -/
def validStringID (v : Option String) : Bool :=
  match v with
  | none => false
  | some s => reStringID.MatchString s

/-- What `notNil` is handed: an `interface{}` that is nil, or one that holds a pointer; the
pointer it holds may itself be nil. -/
inductive Iface (α : Type) where
  | nil : Iface α
  | ptr (p : Option α) : Iface α

/-- notNil checks if the given input is present: `v != nil` on an `interface{}`, which is
true of every interface that holds a pointer, nil or not. -/
def notNil {α : Type} (v : Iface α) : Bool :=
  match v with
  | Iface.nil => false
  | Iface.ptr _ => true

/-! ## net/url -/

/-- The runes `url.QueryEscape` leaves as they are: ASCII letters and digits and `-_.~`. -/
def shouldEscape (c : Char) : Bool :=
  !(c.isAlphanum || c == '-' || c == '_' || c == '.' || c == '~')

/-- Upper-case hexadecimal digit. -/
def upperhex (n : Nat) : Char :=
  if n < 10 then Char.ofNat (48 + n) else Char.ofNat (55 + n)

/-- The library function `url.QueryEscape`: a space becomes `+`, every other rune that
should be escaped becomes `%XX` for each byte of its UTF-8 encoding. -/
def QueryEscape (s : String) : String :=
  String.join <| s.toList.map fun c =>
    if !shouldEscape c then String.singleton c
    else if c == ' ' then "+"
    else String.join <| (String.utf8EncodeChar c).map fun b =>
      String.mk ['%', upperhex (b.toNat / 16), upperhex (b.toNat % 16)]

/-! ## shape.go: the data -/

/-- ShapeType represents a shape type. -/
abbrev ShapeType := String

def ShapeTypeCube : ShapeType := "cube"
def ShapeTypeCylinder : ShapeType := "cylinder"

/-- CubeDimensions is a Dimensions implementation. -/
structure CubeDimensions where
  LengthX : Int
  HeightY : Int
  WidthZ : Int
  deriving DecidableEq, Repr

/-- CylinderDimensions is a Dimensions implementation. -/
structure CylinderDimensions where
  Height : Int
  Radius : Int
  deriving DecidableEq, Repr

/-- The values an `interface{}` holds in these files: what `encoding/json` decodes into an
untyped target (nil, bool, float64, string, slice, map with string keys), a Go `int` as a
caller can put into a map by hand, and the two dimension structs `castDimensions` returns
pointers to. A JSON number is decoded to a `float64`; the embedding keeps numbers with an
integer value, the only ones the wire form of a dimension holds. The entries of a map are
listed in the order `range` visits them. -/
inductive Value where
  | nil : Value
  | bool (b : Bool) : Value
  | float64 (n : Int) : Value
  | int (n : Int) : Value
  | string (s : String) : Value
  | slice (xs : List Value) : Value
  | map (entries : List (String × Value)) : Value
  | cube (d : CubeDimensions) : Value
  | cylinder (d : CylinderDimensions) : Value

/-- How a call ends: with a returned value, in a run-time panic, or by reaching the end of
the function body where the body has no `return`. -/
inductive Outcome (α : Type) where
  | ret (a : α) : Outcome α
  | panic (msg : String) : Outcome α
  | noReturn : Outcome α

/-- Shape represents a Minecraft Shape. -/
structure Shape where
  ID : String
  Location : Option Location
  ShapeType : ShapeType
  Material : String
  PreviousData : List String
  Dimensions : Value
  Status : ResourceStatus

/-- ShapeList represents a list of Shapes; `Items` is a slice of pointers. -/
structure ShapeList where
  Items : List (Option Shape)

/-- ShapeListOptions represents the options for listing Shapes. -/
structure ShapeListOptions where
  Limit : Int

/-- ShapeCreateOptions represents the options for creating a Shape. -/
structure ShapeCreateOptions where
  Location : Option Location
  ShapeType : ShapeType
  Material : String
  Dimensions : Value

/-- ShapeUpdateOptions represents the options for updating a Shape. -/
structure ShapeUpdateOptions where
  Location : Option Location
  ShapeType : ShapeType
  Material : String
  Dimensions : Value

/-! ## entity.go: the data -/

/-- Entity represents a Minecraft entity. -/
structure Entity where
  ID : String
  Location : Option Location
  EntityType : String
  CustomName : String
  Status : ResourceStatus

/-- EntityCreateOptions represents the options for creating an entity. -/
structure EntityCreateOptions where
  Location : Option Location
  EntityType : String
  CustomName : String

/-! ## The transport -/

/-- The third argument of `client.newRequest`: nil or a pointer to an options struct. -/
inductive Body where
  | shapeList (o : ShapeListOptions) : Body
  | shapeCreate (o : ShapeCreateOptions) : Body
  | shapeUpdate (o : ShapeUpdateOptions) : Body
  | entityCreate (o : EntityCreateOptions) : Body

/-- One call to the transport, as logged. -/
inductive Call where
  | newRequest (method path : String) (body : Option Body) : Call
  | perform : Call

/-- The client the services hold: the two methods the services call, over a transport state
`σ` and a request type `Req`. `client.do ctx req out` decodes the response into `out` and
returns an error; it is one function per kind of `out` here. The context is passed through
to the transport untouched and is part of `σ`. -/
structure Client (σ Req : Type) where
  newRequest : σ → String → String → Option Body → Except Error Req × σ
  doShape : σ → Req → Except Error Shape × σ
  doShapeList : σ → Req → Except Error ShapeList × σ
  doEntity : σ → Req → Except Error Entity × σ
  doNil : σ → Req → Option Error × σ

/-- The state a service call runs in: the state of the transport and the log of the calls
made to it. -/
structure World (σ : Type) where
  state : σ
  calls : List Call

section Transport

variable {σ Req : Type}

/-- The call `s.client.newRequest method path body`, logged. -/
def Client.callNewRequest (c : Client σ Req) (w : World σ) (method path : String)
    (body : Option Body) : Except Error Req × World σ :=
  let r := c.newRequest w.state method path body
  (r.1, { state := r.2, calls := w.calls ++ [Call.newRequest method path body] })

/-- The call `s.client.do ctx req out`, logged, for each kind of `out`. -/
def Client.callDoShape (c : Client σ Req) (w : World σ) (req : Req) :
    Except Error Shape × World σ :=
  let r := c.doShape w.state req
  (r.1, { state := r.2, calls := w.calls ++ [Call.perform] })

def Client.callDoShapeList (c : Client σ Req) (w : World σ) (req : Req) :
    Except Error ShapeList × World σ :=
  let r := c.doShapeList w.state req
  (r.1, { state := r.2, calls := w.calls ++ [Call.perform] })

def Client.callDoEntity (c : Client σ Req) (w : World σ) (req : Req) :
    Except Error Entity × World σ :=
  let r := c.doEntity w.state req
  (r.1, { state := r.2, calls := w.calls ++ [Call.perform] })

def Client.callDoNil (c : Client σ Req) (w : World σ) (req : Req) :
    Option Error × World σ :=
  let r := c.doNil w.state req
  (r.1, { state := r.2, calls := w.calls ++ [Call.perform] })

end Transport

/-! ## shape.go: the functions -/

/-- Two expressions the text of `shape.go` does not hold; the functions below take them as
given, and every theorem is stated for all of them.

* `toInt`: in `m[key] = value.(string)` the map `m` is a `map[string]int`, and the text
  holds no conversion from the asserted string to an `int`;
* `shapeTypeArg`: `castDimensions` has two parameters, and the four calls
  `castDimensions(shp.Dimensions)` pass the first only; this is the second argument, as a
  function of the shape at hand. -/
structure Elided where
  toInt : String → Int
  shapeTypeArg : Shape → ShapeType

/-- NewCubeDimensions is a constructor for CubeDimensions. -/
def NewCubeDimensions (lengthX heightY widthZ : Int) : CubeDimensions :=
  { LengthX := lengthX, HeightY := heightY, WidthZ := widthZ }

/-- NewCylinderDimensions is a constructor for CylinderDimensions. -/
def NewCylinderDimensions (height radius : Int) : CylinderDimensions :=
  { Height := height, Radius := radius }

/-- The expression `m[key]` on a `map[string]int`: the zero value for a key not in the map. -/
def index (m : List (String × Int)) (key : String) : Int :=
  match m.lookup key with
  | some v => v
  | none => 0

/-- The loop `for key, value := range d { m[key] = value.(string) }` of `castDimensions`:
the type assertion panics on a value that is not a string. The map `m` is a list of
bindings, the latest first. -/
def castLoop (toInt : String → Int) :
    List (String × Value) → List (String × Int) → Outcome (List (String × Int))
  | [], m => Outcome.ret m
  | (key, Value.string s) :: rest, m => castLoop toInt rest ((key, toInt s) :: m)
  | (_, _) :: _, _ => Outcome.panic "interface conversion: interface {} is not string"

/-- The function `castDimensions`. The type assertion on `dimensions` panics unless it is a
map; the `switch` has the two cases `ShapeTypeCube` and `ShapeTypeCylinder` and no default,
and no statement follows it. -/
def castDimensions (toInt : String → Int) (dimensions : Value) (shapeType : ShapeType) :
    Outcome Value :=
  match dimensions with
  | Value.map d =>
    match castLoop toInt d [] with
    | Outcome.ret m =>
      if shapeType = ShapeTypeCube then
        Outcome.ret
          (Value.cube (NewCubeDimensions (index m "lengthX") (index m "heightY") (index m "widthZ")))
      else if shapeType = ShapeTypeCylinder then
        Outcome.ret (Value.cylinder (NewCylinderDimensions (index m "height") (index m "radius")))
      else Outcome.noReturn
    | Outcome.panic msg => Outcome.panic msg
    | Outcome.noReturn => Outcome.noReturn
  | _ => Outcome.panic "interface conversion: interface {} is not map[string]interface {}"

/-- The statement `shp.Dimensions = castDimensions(shp.Dimensions)` on a shape. -/
def castShape (el : Elided) (shp : Shape) : Outcome Shape :=
  match castDimensions el.toInt shp.Dimensions (el.shapeTypeArg shp) with
  | Outcome.ret d => Outcome.ret { shp with Dimensions := d }
  | Outcome.panic msg => Outcome.panic msg
  | Outcome.noReturn => Outcome.noReturn

/-- The loop `for _, shp := range shapel.Items { ... }` of `List`; a nil item is
dereferenced by the assignment. -/
def castItems (el : Elided) : List (Option Shape) → Outcome (List (Option Shape))
  | [] => Outcome.ret []
  | none :: _ => Outcome.panic "invalid memory address or nil pointer dereference"
  | some shp :: rest =>
    match castShape el shp with
    | Outcome.ret shp1 =>
      match castItems el rest with
      | Outcome.ret rest1 => Outcome.ret (some shp1 :: rest1)
      | Outcome.panic msg => Outcome.panic msg
      | Outcome.noReturn => Outcome.noReturn
    | Outcome.panic msg => Outcome.panic msg
    | Outcome.noReturn => Outcome.noReturn

/-- The method `valid` of `ShapeCreateOptions`. -/
def ShapeCreateOptions.valid (e : ShapeCreateOptions) : Option Error :=
  if !notNil (Iface.ptr (some e.ShapeType)) then some "shape type is required"
  else if !validString (some e.Material) then some "material is required"
  else if !notNil (Iface.ptr (some e.Dimensions)) then some "dimensions is required"
  else if !validLocation e.Location then some "location is required"
  else none

section Services

variable {σ Req : Type}

/-- The tail shared by `Create`, `Read` and `Update` of shapes: the call to `do` into a
fresh `Shape`, then the cast of its dimensions. -/
def doAndCast (el : Elided) (c : Client σ Req) (w : World σ) (req : Req) :
    Outcome (Except Error Shape) × World σ :=
  match c.callDoShape w req with
  | (Except.error err, w2) => (Outcome.ret (Except.error err), w2)
  | (Except.ok shp, w2) =>
    match castShape el shp with
    | Outcome.ret shp1 => (Outcome.ret (Except.ok shp1), w2)
    | Outcome.panic msg => (Outcome.panic msg, w2)
    | Outcome.noReturn => (Outcome.noReturn, w2)

/-- List all Shapes. -/
def shapes.List (el : Elided) (c : Client σ Req) (w : World σ) (options : ShapeListOptions) :
    Outcome (Except Error ShapeList) × World σ :=
  match c.callNewRequest w "GET" "shapes" (some (Body.shapeList options)) with
  | (Except.error err, w1) => (Outcome.ret (Except.error err), w1)
  | (Except.ok req, w1) =>
    match c.callDoShapeList w1 req with
    | (Except.error err, w2) => (Outcome.ret (Except.error err), w2)
    | (Except.ok shapel, w2) =>
      match castItems el shapel.Items with
      | Outcome.ret items => (Outcome.ret (Except.ok { Items := items }), w2)
      | Outcome.panic msg => (Outcome.panic msg, w2)
      | Outcome.noReturn => (Outcome.noReturn, w2)

/-- Create a new Shape with the given options. -/
def shapes.Create (el : Elided) (c : Client σ Req) (w : World σ)
    (options : ShapeCreateOptions) : Outcome (Except Error Shape) × World σ :=
  match options.valid with
  | some err => (Outcome.ret (Except.error err), w)
  | none =>
    match c.callNewRequest w "POST" "shapes" (some (Body.shapeCreate options)) with
    | (Except.error err, w1) => (Outcome.ret (Except.error err), w1)
    | (Except.ok req, w1) => doAndCast el c w1 req

/-- Read a Shape by id. -/
def shapes.Read (el : Elided) (c : Client σ Req) (w : World σ) (ShapeID : String) :
    Outcome (Except Error Shape) × World σ :=
  if !validStringID (some ShapeID) then
    (Outcome.ret (Except.error "invalid value for ShapeID"), w)
  else
    match c.callNewRequest w "GET" ("shapes/" ++ QueryEscape ShapeID) none with
    | (Except.error err, w1) => (Outcome.ret (Except.error err), w1)
    | (Except.ok req, w1) => doAndCast el c w1 req

/-- Update attributes of an existing Shape. -/
def shapes.Update (el : Elided) (c : Client σ Req) (w : World σ) (ShapeID : String)
    (options : ShapeUpdateOptions) : Outcome (Except Error Shape) × World σ :=
  if !validStringID (some ShapeID) then
    (Outcome.ret (Except.error "invalid value for ShapeID"), w)
  else
    match c.callNewRequest w "PATCH" ("shapes/" ++ QueryEscape ShapeID)
        (some (Body.shapeUpdate options)) with
    | (Except.error err, w1) => (Outcome.ret (Except.error err), w1)
    | (Except.ok req, w1) => doAndCast el c w1 req

/-- Delete a Shape by its ID. -/
def shapes.Delete (c : Client σ Req) (w : World σ) (ShapeID : String) :
    Option Error × World σ :=
  if !validStringID (some ShapeID) then (some "invalid value for ShapeID", w)
  else
    match c.callNewRequest w "DELETE" ("shapes/" ++ QueryEscape ShapeID) none with
    | (Except.error err, w1) => (some err, w1)
    | (Except.ok req, w1) => c.callDoNil w1 req

end Services

/-! ## entity.go: the functions -/

/-- The method `valid` of `EntityCreateOptions`. -/
def EntityCreateOptions.valid (e : EntityCreateOptions) : Option Error :=
  if !validString (some e.EntityType) then some "entity type is required"
  else if !validString (some e.CustomName) then some "custom name is required"
  else if !validLocation e.Location then some "location is required"
  else none

section EntityServices

variable {σ Req : Type}

/-- Create a new entity with the given options. -/
def entities.Create (c : Client σ Req) (w : World σ) (options : EntityCreateOptions) :
    Except Error Entity × World σ :=
  match options.valid with
  | some err => (Except.error err, w)
  | none =>
    match c.callNewRequest w "POST" "entities" (some (Body.entityCreate options)) with
    | (Except.error err, w1) => (Except.error err, w1)
    | (Except.ok req, w1) => c.callDoEntity w1 req

end EntityServices

/-! ## Wire forms and a transport double -/

/-- The wire form of a `CubeDimensions`, as it comes back from the transport in an untyped
target: the flat object whose keys are the JSON tags of the struct, each value a number. -/
def CubeDimensions.wire (d : CubeDimensions) : Value :=
  Value.map
    [("lengthX", Value.float64 d.LengthX), ("heightY", Value.float64 d.HeightY),
      ("widthZ", Value.float64 d.WidthZ)]

/-- The wire form of a `CylinderDimensions`. -/
def CylinderDimensions.wire (d : CylinderDimensions) : Value :=
  Value.map [("height", Value.float64 d.Height), ("radius", Value.float64 d.Radius)]

/-- A transport double over a trivial state: `newRequest` succeeds, and `do` succeeds and
delivers the given shape, the given list of shapes, or an empty entity. -/
def stubClient (shp : Shape) (items : List (Option Shape)) : Client Unit Unit :=
  { newRequest := fun st _ _ _ => (Except.ok (), st)
    doShape := fun st _ => (Except.ok shp, st)
    doShapeList := fun st _ => (Except.ok { Items := items }, st)
    doEntity := fun st _ =>
      (Except.ok { ID := "", Location := none, EntityType := "", CustomName := "",
                   Status := "" }, st)
    doNil := fun st _ => (none, st) }

/-- A shape as the transport delivers it, with the given type and raw dimensions. -/
def wireShape (id : String) (shapeType : ShapeType) (dimensions : Value) : Shape :=
  { ID := id
    Location := NewLocation 0 64 0 "world"
    ShapeType := shapeType
    Material := "stone"
    PreviousData := []
    Dimensions := dimensions
    Status := ResourceStatusReady }

/-- The state before any call to the transport. -/
def World.start : World Unit :=
  { state := (), calls := [] }

/-- One way to fill the two gaps of `shape.go`: strings become 0, and the shape type passed
to `castDimensions` is that of the shape. -/
def Elided.sample : Elided :=
  { toInt := fun _ => 0, shapeTypeArg := fun shp => shp.ShapeType }

/-! ## Theorems: the derivative matcher -/

namespace Regex

theorem not_matches_empty (s : List Char) : ¬ Matches empty s := by
  intro h
  cases h

theorem matches_eps_iff (s : List Char) : Matches eps s ↔ s = [] := by
  constructor
  · intro h
    cases h
    rfl
  · rintro rfl
    exact Matches.eps

theorem matches_cls_iff (ranges : List (Char × Char)) (s : List Char) :
    Matches (cls ranges) s ↔ ∃ c, s = [c] ∧ inRanges ranges c = true := by
  constructor
  · intro h
    cases h with
    | cls hc => exact ⟨_, rfl, hc⟩
  · rintro ⟨c, rfl, hc⟩
    exact Matches.cls hc

theorem matches_seq_iff (a b : Regex) (s : List Char) :
    Matches (seq a b) s ↔ ∃ u v, s = u ++ v ∧ Matches a u ∧ Matches b v := by
  constructor
  · intro h
    cases h with
    | seq ha hb => exact ⟨_, _, rfl, ha, hb⟩
  · rintro ⟨u, v, rfl, ha, hb⟩
    exact Matches.seq ha hb

theorem matches_alt_iff (a b : Regex) (s : List Char) :
    Matches (alt a b) s ↔ Matches a s ∨ Matches b s := by
  constructor
  · intro h
    cases h with
    | altL ha => exact Or.inl ha
    | altR hb => exact Or.inr hb
  · rintro (ha | hb)
    · exact Matches.altL ha
    · exact Matches.altR hb

/-- A non-empty text in `r*` begins with a non-empty text in `r`. -/
theorem star_cons_inv (r : Regex) (c : Char) (s : List Char)
    (h : Matches (star r) (c :: s)) :
    ∃ u v, s = u ++ v ∧ Matches r (c :: u) ∧ Matches (star r) v := by
  generalize hx : star r = x at h
  generalize hy : c :: s = y at h
  induction h generalizing s with
  | eps => cases hx
  | cls _ => cases hx
  | seq _ _ _ _ => cases hx
  | altL _ _ => cases hx
  | altR _ _ => cases hx
  | starNil => cases hy
  | @starCons r1 u t h1 h2 _ ih2 =>
    cases hx
    cases u with
    | nil => exact ih2 s rfl hy
    | cons d u1 =>
      have hy1 : c :: s = d :: (u1 ++ t) := hy
      obtain ⟨rfl, rfl⟩ := List.cons.inj hy1
      exact ⟨u1, t, rfl, h1, h2⟩

theorem nullable_iff (r : Regex) : nullable r = true ↔ Matches r [] := by
  induction r with
  | empty => simp [nullable, not_matches_empty]
  | eps => simp [nullable, matches_eps_iff]
  | cls ranges => simp [nullable, matches_cls_iff]
  | seq a b iha ihb =>
    simp only [nullable, Bool.and_eq_true, iha, ihb, matches_seq_iff]
    constructor
    · rintro ⟨ha, hb⟩
      exact ⟨[], [], rfl, ha, hb⟩
    · rintro ⟨u, v, huv, ha, hb⟩
      have h := List.append_eq_nil.mp huv.symm
      rw [h.1] at ha
      rw [h.2] at hb
      exact ⟨ha, hb⟩
  | alt a b iha ihb =>
    simp only [nullable, Bool.or_eq_true, iha, ihb, matches_alt_iff]
  | star r _ =>
    simp only [nullable, true_iff]
    exact Matches.starNil

theorem deriv_iff (r : Regex) (c : Char) (s : List Char) :
    Matches (deriv r c) s ↔ Matches r (c :: s) := by
  induction r generalizing s with
  | empty => simp [deriv, not_matches_empty]
  | eps => simp [deriv, not_matches_empty, matches_eps_iff]
  | cls ranges =>
    simp only [deriv, matches_cls_iff]
    constructor
    · intro h
      by_cases hc : inRanges ranges c = true
      · rw [if_pos hc, matches_eps_iff] at h
        subst h
        exact ⟨c, rfl, hc⟩
      · rw [if_neg hc] at h
        exact absurd h (not_matches_empty s)
    · rintro ⟨d, hd, hc⟩
      simp only [List.cons.injEq] at hd
      obtain ⟨rfl, rfl⟩ := hd
      rw [if_pos hc]
      exact Matches.eps
  | seq a b iha ihb =>
    have key : Matches (seq a b) (c :: s) ↔
        (Matches a [] ∧ Matches b (c :: s)) ∨
          ∃ u v, s = u ++ v ∧ Matches a (c :: u) ∧ Matches b v := by
      rw [matches_seq_iff]
      constructor
      · rintro ⟨u, v, huv, ha, hb⟩
        cases u with
        | nil =>
          simp only [List.nil_append] at huv
          rw [← huv] at hb
          exact Or.inl ⟨ha, hb⟩
        | cons d u1 =>
          simp only [List.cons_append, List.cons.injEq] at huv
          obtain ⟨rfl, rfl⟩ := huv
          exact Or.inr ⟨u1, v, rfl, ha, hb⟩
      · rintro (⟨ha, hb⟩ | ⟨u, v, rfl, ha, hb⟩)
        · exact ⟨[], c :: s, rfl, ha, hb⟩
        · exact ⟨c :: u, v, rfl, ha, hb⟩
    rw [key]
    by_cases hn : nullable a = true
    · have hn1 := (nullable_iff a).mp hn
      simp only [deriv, if_pos hn, matches_alt_iff, matches_seq_iff, iha, ihb]
      constructor
      · rintro (h | h)
        · exact Or.inr h
        · exact Or.inl ⟨hn1, h⟩
      · rintro (⟨_, h⟩ | h)
        · exact Or.inr h
        · exact Or.inl h
    · have hn1 : ¬ Matches a [] := fun h => hn ((nullable_iff a).mpr h)
      simp only [deriv, if_neg hn, matches_seq_iff, iha]
      constructor
      · intro h
        exact Or.inr h
      · rintro (⟨h, _⟩ | h)
        · exact absurd h hn1
        · exact h
  | alt a b iha ihb =>
    simp only [deriv, matches_alt_iff, iha, ihb]
  | star r ih =>
    simp only [deriv, matches_seq_iff, ih]
    constructor
    · rintro ⟨u, v, rfl, hr, hs⟩
      exact Matches.starCons hr hs
    · intro h
      exact star_cons_inv r c s h

/-- The derivative matcher decides membership in the denoted language. -/
theorem fullMatch_iff (r : Regex) (s : List Char) : fullMatch r s = true ↔ Matches r s := by
  induction s generalizing r with
  | nil => simpa [fullMatch] using nullable_iff r
  | cons c s ih =>
    have h := ih (deriv r c)
    simp only [fullMatch, List.foldl_cons] at h ⊢
    rw [h, deriv_iff]

theorem matches_star_cls_iff (ranges : List (Char × Char)) (s : List Char) :
    Matches (star (cls ranges)) s ↔ ∀ c ∈ s, inRanges ranges c = true := by
  induction s with
  | nil =>
    simp only [List.not_mem_nil, false_imp_iff, implies_true, iff_true]
    exact Matches.starNil
  | cons d s ih =>
    constructor
    · intro h
      obtain ⟨u, v, rfl, hr, hs⟩ := star_cons_inv _ d s h
      obtain ⟨e, he, hc⟩ := (matches_cls_iff ranges _).mp hr
      simp only [List.cons.injEq] at he
      obtain ⟨rfl, rfl⟩ := he
      intro c hmem
      simp only [List.nil_append, List.mem_cons] at hmem
      rcases hmem with rfl | hmem
      · exact hc
      · exact (ih.mp hs) c hmem
    · intro h
      have h1 : Matches (cls ranges) [d] := Matches.cls (h d (List.mem_cons_self d s))
      have h2 : Matches (star (cls ranges)) s :=
        ih.mpr (fun c hc => h c (List.mem_cons_of_mem d hc))
      exact Matches.starCons h1 h2

theorem matches_plus_cls_iff (ranges : List (Char × Char)) (s : List Char) :
    Matches (plus (cls ranges)) s ↔ s ≠ [] ∧ ∀ c ∈ s, inRanges ranges c = true := by
  unfold plus
  rw [matches_seq_iff]
  constructor
  · rintro ⟨u, v, rfl, hu, hv⟩
    obtain ⟨d, rfl, hd⟩ := (matches_cls_iff ranges u).mp hu
    refine ⟨by simp, ?_⟩
    intro c hc
    simp only [List.singleton_append, List.mem_cons] at hc
    rcases hc with rfl | hc
    · exact hd
    · exact (matches_star_cls_iff ranges v).mp hv c hc
  · rintro ⟨hne, hall⟩
    cases s with
    | nil => exact absurd rfl hne
    | cons d s =>
      refine ⟨[d], s, rfl, Matches.cls (hall d (List.mem_cons_self d s)), ?_⟩
      exact (matches_star_cls_iff ranges s).mpr (fun c hc => hall c (List.mem_cons_of_mem d hc))

end Regex

/-! ## Theorems: validations.go -/

theorem char_ge_iff (c : Char) (n : UInt32) : c.val ≥ n ↔ n.toNat ≤ c.toNat := Iff.rfl

theorem char_le_iff (c : Char) (n : UInt32) : c.val ≤ n ↔ c.toNat ≤ n.toNat := Iff.rfl

theorem char_eq_iff (c d : Char) : c = d ↔ c.toNat = d.toNat := by
  constructor
  · rintro rfl
    rfl
  · intro h
    exact Char.ext (UInt32.ext h)

/-- The character class of `reStringID` holds the ASCII letters, the ASCII digits, the
hyphen, the period and the underscore, and nothing else. -/
theorem reStringID_class_iff (c : Char) :
    Regex.inRanges [('a', 'z'), ('A', 'Z'), ('0', '9'), ('-', '-'), ('.', '.'), ('_', '_')] c
        = true ↔
      (c.isAlpha || c.isDigit || c == '-' || c == '.' || c == '_') = true := by
  simp only [Regex.inRanges, List.any_cons, List.any_nil, Bool.or_false, Bool.or_eq_true,
    Bool.and_eq_true, decide_eq_true_eq, Char.isAlpha, Char.isUpper, Char.isLower, Char.isDigit,
    char_ge_iff, char_le_iff, beq_iff_eq, char_eq_iff c]
  have ha : 'a'.toNat = 97 := rfl
  have hz : 'z'.toNat = 122 := rfl
  have hA : 'A'.toNat = 65 := rfl
  have hZ : 'Z'.toNat = 90 := rfl
  have h0 : '0'.toNat = 48 := rfl
  have h9 : '9'.toNat = 57 := rfl
  have hm : '-'.toNat = 45 := rfl
  have hd : '.'.toNat = 46 := rfl
  have hu : '_'.toNat = 95 := rfl
  have e1 : (97 : UInt32).toNat = 97 := rfl
  have e2 : (122 : UInt32).toNat = 122 := rfl
  have e3 : (65 : UInt32).toNat = 65 := rfl
  have e4 : (90 : UInt32).toNat = 90 := rfl
  have e5 : (48 : UInt32).toNat = 48 := rfl
  have e6 : (57 : UInt32).toNat = 57 := rfl
  rw [ha, hz, hA, hZ, h0, h9, hm, hd, hu, e1, e2, e3, e4, e5, e6]
  omega

/-- With both anchors, `MatchString` is a match of the whole text by the body. -/
theorem reStringID_MatchString (s : String) :
    reStringID.MatchString s = reStringID.body.fullMatch s.toList := by
  simp [Regexp.MatchString, reStringID]

theorem validStringID_some_iff (s : String) :
    validStringID (some s) = true ↔
      1 ≤ s.length ∧
        ∀ c ∈ s.toList,
          (c.isAlpha || c.isDigit || c == '-' || c == '.' || c == '_') = true := by
  have hlen : s.length = s.toList.length := rfl
  simp only [validStringID, reStringID_MatchString, Regex.fullMatch_iff]
  show Regex.Matches (Regex.plus (Regex.cls _)) s.toList ↔ _
  rw [Regex.matches_plus_cls_iff, hlen]
  constructor
  · rintro ⟨hne, hall⟩
    refine ⟨?_, fun c hc => (reStringID_class_iff c).mp (hall c hc)⟩
    exact Nat.succ_le_of_lt (List.length_pos.mpr hne)
  · rintro ⟨hlen1, hall⟩
    refine ⟨?_, fun c hc => (reStringID_class_iff c).mpr (hall c hc)⟩
    exact List.length_pos.mp hlen1

/-- C5: for every string `s`, `validStringID(&s)` is true exactly when `s` has one or more
characters and each of them is an ASCII letter, an ASCII digit, a hyphen, a period or an
underscore; the empty string is rejected, and so is every string that ends in a newline. -/
theorem validStringID_iff_identifier :
    (∀ s : String, validStringID (some s) = true ↔
      1 ≤ s.length ∧
        ∀ c ∈ s.toList,
          (c.isAlpha || c.isDigit || c == '-' || c == '.' || c == '_') = true) ∧
    validStringID (some "") = false ∧
    (∀ s : String, validStringID (some (s.push '\n')) = false) := by
  refine ⟨validStringID_some_iff, ?_, ?_⟩
  · rw [Bool.eq_false_iff]
    intro h
    have h1 := ((validStringID_some_iff "").mp h).1
    exact absurd h1 (by decide)
  · intro s
    rw [Bool.eq_false_iff]
    intro h
    have h2 := ((validStringID_some_iff (s.push '\n')).mp h).2 '\n' (by simp [String.push])
    exact absurd h2 (by decide)

/-! ## Theorems: required fields -/

theorem ShapeCreateOptions_valid_eq (e : ShapeCreateOptions) :
    e.valid =
      if e.Material = "" then some "material is required"
      else if e.Location.isNone then some "location is required"
      else none := by
  rcases e with ⟨loc, st, mat, dims⟩
  by_cases hm : mat = ""
  · simp [ShapeCreateOptions.valid, notNil, validString, hm]
  · cases loc <;> simp [ShapeCreateOptions.valid, notNil, validString, validLocation, hm]

/-- C9: `valid` of `ShapeCreateOptions` returns nil exactly when `Material` is non-empty and
`Location` is non-nil; the result does not depend on `ShapeType` or `Dimensions`, since
`notNil` is given the address of a field; the error is "material is required" when
`Material` is empty and otherwise "location is required". -/
theorem ShapeCreateOptions_valid_characterised :
    (∀ e : ShapeCreateOptions, e.valid = none ↔ e.Material ≠ "" ∧ e.Location ≠ none) ∧
    (∀ (e : ShapeCreateOptions) (shapeType : ShapeType) (dimensions : Value),
      ({ e with ShapeType := shapeType, Dimensions := dimensions } :
        ShapeCreateOptions).valid = e.valid) ∧
    (∀ e : ShapeCreateOptions, e.valid =
      if e.Material = "" then some "material is required"
      else if e.Location.isNone then some "location is required"
      else none) := by
  refine ⟨?_, ?_, ShapeCreateOptions_valid_eq⟩
  · intro e
    rw [ShapeCreateOptions_valid_eq e]
    by_cases hm : e.Material = ""
    · simp [hm]
    · cases hl : e.Location <;> simp [hm]
  · intro e shapeType dimensions
    rw [ShapeCreateOptions_valid_eq, ShapeCreateOptions_valid_eq]

theorem EntityCreateOptions_valid_eq (e : EntityCreateOptions) :
    e.valid =
      if e.EntityType = "" then some "entity type is required"
      else if e.CustomName = "" then some "custom name is required"
      else if e.Location.isNone then some "location is required"
      else none := by
  rcases e with ⟨loc, et, cn⟩
  by_cases h1 : et = ""
  · simp [EntityCreateOptions.valid, validString, h1]
  · by_cases h2 : cn = ""
    · simp [EntityCreateOptions.valid, validString, h1, h2]
    · cases loc <;> simp [EntityCreateOptions.valid, validString, validLocation, h1, h2]

/-! ## Theorems: the calls made to the transport -/

section Calls

variable {σ Req : Type}

theorem doAndCast_calls (el : Elided) (c : Client σ Req) (w : World σ) (req : Req) :
    (doAndCast el c w req).2.calls = w.calls ++ [Call.perform] := by
  unfold doAndCast Client.callDoShape
  generalize c.doShape w.state req = r
  rcases r with ⟨err | shp, st⟩
  · rfl
  · simp only
    cases castShape el shp <;> rfl

/-- C10: `entities.Create` fails before any call to the transport exactly when `EntityType`
is empty, `CustomName` is empty or `Location` is nil, with the error of the first failing
check in the order "entity type is required", "custom name is required", "location is
required", the transport left as it was. When all three are present the options are handed
to the transport: `Create` calls `newRequest("POST", "entities", &options)`, returns its
error if it gives one, and otherwise calls `do` on the request it built and returns what
`do` delivers. -/
theorem entities_Create_validation (c : Client σ Req) (w : World σ)
    (options : EntityCreateOptions) :
    if options.EntityType = "" then
      entities.Create c w options = (Except.error "entity type is required", w)
    else if options.CustomName = "" then
      entities.Create c w options = (Except.error "custom name is required", w)
    else if options.Location.isNone then
      entities.Create c w options = (Except.error "location is required", w)
    else
      entities.Create c w options =
        match c.newRequest w.state "POST" "entities" (some (Body.entityCreate options)) with
        | (Except.error err, st) =>
          (Except.error err,
            { state := st
              calls := w.calls ++
                [Call.newRequest "POST" "entities" (some (Body.entityCreate options))] })
        | (Except.ok req, st) =>
          ((c.doEntity st req).1,
            { state := (c.doEntity st req).2
              calls := w.calls ++
                [Call.newRequest "POST" "entities" (some (Body.entityCreate options)),
                  Call.perform] }) := by
  have hv := EntityCreateOptions_valid_eq options
  by_cases h1 : options.EntityType = ""
  · rw [if_pos h1] at hv ⊢
    simp only [entities.Create, hv]
  · rw [if_neg h1] at hv ⊢
    by_cases h2 : options.CustomName = ""
    · rw [if_pos h2] at hv ⊢
      simp only [entities.Create, hv]
    · rw [if_neg h2] at hv ⊢
      by_cases h3 : options.Location.isNone = true
      · rw [if_pos h3] at hv ⊢
        simp only [entities.Create, hv]
      · rw [if_neg h3] at hv ⊢
        simp only [entities.Create, hv, Client.callNewRequest, Client.callDoEntity]
        generalize c.newRequest w.state "POST" "entities"
            (some (Body.entityCreate options)) = r
        rcases r with ⟨err | req, st⟩
        · rfl
        · simp

/-- C6: for an identifier that fails `validStringID`, each of `Read`, `Update` (with any
options) and `Delete` of shapes returns the error "invalid value for ShapeID" and leaves
the transport untouched: its state and the log of calls are what they were. -/
theorem shapes_invalid_id_rejected (el : Elided) (c : Client σ Req) (w : World σ)
    (ShapeID : String) (options : ShapeUpdateOptions)
    (h : validStringID (some ShapeID) = false) :
    shapes.Read el c w ShapeID = (Outcome.ret (Except.error "invalid value for ShapeID"), w) ∧
    shapes.Update el c w ShapeID options =
      (Outcome.ret (Except.error "invalid value for ShapeID"), w) ∧
    shapes.Delete c w ShapeID = (some "invalid value for ShapeID", w) := by
  simp [shapes.Read, shapes.Update, shapes.Delete, h]

/-- Once `valid` has returned nil, the first call `shapes.Create` makes is
`newRequest("POST", "shapes", &options)`. -/
theorem shapes_Create_calls_of_valid (el : Elided) (c : Client σ Req) (w : World σ)
    (options : ShapeCreateOptions) (hv : options.valid = none) :
    ∃ rest, (shapes.Create el c w options).2.calls =
      w.calls ++ Call.newRequest "POST" "shapes" (some (Body.shapeCreate options)) :: rest := by
  simp only [shapes.Create, hv]
  have hd := fun w1 req => doAndCast_calls el c w1 req
  revert hd
  unfold Client.callNewRequest
  generalize c.newRequest w.state "POST" "shapes" (some (Body.shapeCreate options)) = r
  intro hd
  rcases r with ⟨err | req, st⟩
  · exact ⟨[], rfl⟩
  · refine ⟨[Call.perform], ?_⟩
    simp only
    rw [hd]
    simp

end Calls

/-- Witness for C6: an identifier with a space, on the transport double. -/
theorem shapes_invalid_id_rejected_witness :
    validStringID (some "shape 01") = false ∧
    shapes.Read Elided.sample (stubClient (wireShape "a" ShapeTypeCube Value.nil) [])
        World.start "shape 01" =
      (Outcome.ret (Except.error "invalid value for ShapeID"), World.start) ∧
    shapes.Update Elided.sample (stubClient (wireShape "a" ShapeTypeCube Value.nil) [])
        World.start "shape 01" ⟨none, "", "", Value.nil⟩ =
      (Outcome.ret (Except.error "invalid value for ShapeID"), World.start) ∧
    shapes.Delete (stubClient (wireShape "a" ShapeTypeCube Value.nil) []) World.start
        "shape 01" = (some "invalid value for ShapeID", World.start) :=
  ⟨by decide,
    shapes_invalid_id_rejected Elided.sample
      (stubClient (wireShape "a" ShapeTypeCube Value.nil) []) World.start "shape 01"
      ⟨none, "", "", Value.nil⟩ (by decide)⟩

/-- C4, at the failing input: with `Location` and `Material` given, an empty `ShapeType`
and nil `Dimensions`, `valid` returns nil and `shapes.Create` goes on to the transport; the
first call it makes is `newRequest("POST", "shapes", &options)`, on every transport. -/
theorem shapes_Create_empty_shapeType_reaches_transport :
    (⟨NewLocation 0 64 0 "world", "", "stone", Value.nil⟩ : ShapeCreateOptions).valid = none ∧
    ∀ (σ Req : Type) (el : Elided) (c : Client σ Req) (w : World σ),
      ∃ rest,
        (shapes.Create el c w ⟨NewLocation 0 64 0 "world", "", "stone", Value.nil⟩).2.calls =
          w.calls ++
            Call.newRequest "POST" "shapes"
              (some (Body.shapeCreate ⟨NewLocation 0 64 0 "world", "", "stone", Value.nil⟩)) ::
              rest := by
  have hv : (⟨NewLocation 0 64 0 "world", "", "stone", Value.nil⟩ :
      ShapeCreateOptions).valid = none := by
    rw [ShapeCreateOptions_valid_eq]
    decide
  exact ⟨hv, fun σ Req el c w => shapes_Create_calls_of_valid el c w _ hv⟩

/-! ## Theorems: castDimensions -/

/-- C1, at the failing input: on a payload that holds an integer for each key its shape
type requires, as a `float64` (what the JSON decoder delivers) or as an `int`,
`castDimensions` panics in the type assertion `value.(string)`, whatever the conversion
`toInt` is; it returns neither variant. -/
theorem castDimensions_integer_payload_panics :
    ∀ (toInt : String → Int) (x y z : Int),
      castDimensions toInt
          (Value.map [("lengthX", Value.float64 x), ("heightY", Value.float64 y),
            ("widthZ", Value.float64 z)]) ShapeTypeCube =
        Outcome.panic "interface conversion: interface {} is not string" ∧
      castDimensions toInt
          (Value.map [("lengthX", Value.int x), ("heightY", Value.int y),
            ("widthZ", Value.int z)]) ShapeTypeCube =
        Outcome.panic "interface conversion: interface {} is not string" ∧
      castDimensions toInt
          (Value.map [("height", Value.float64 x), ("radius", Value.float64 y)])
          ShapeTypeCylinder =
        Outcome.panic "interface conversion: interface {} is not string" ∧
      castDimensions toInt
          (Value.map [("height", Value.int x), ("radius", Value.int y)]) ShapeTypeCylinder =
        Outcome.panic "interface conversion: interface {} is not string" := by
  intro toInt x y z
  exact ⟨rfl, rfl, rfl, rfl⟩

/-- C2, at the failing input: for the shape type "sphere", neither case of the `switch`
is taken and the body of `castDimensions` ends without a `return`: no error is raised, on
the empty payload as on a payload of strings. -/
theorem castDimensions_unknown_type_falls_through :
    ∀ toInt : String → Int,
      castDimensions toInt (Value.map []) "sphere" = Outcome.noReturn ∧
      castDimensions toInt (Value.map [("radius", Value.string "3")]) "sphere" =
        Outcome.noReturn := by
  intro toInt
  constructor
  · simp [castDimensions, castLoop, ShapeTypeCube, ShapeTypeCylinder]
  · simp [castDimensions, castLoop, ShapeTypeCube, ShapeTypeCylinder]

/-- C3, at the failing input: on the empty payload, which lacks every required key, the
loop of `castDimensions` has nothing to visit and each `m[key]` is the zero value of a key
not in the map; the call returns a `CubeDimensions` with every field 0 for the type cube and
a `CylinderDimensions` with every field 0 for the type cylinder, whatever the conversion
`toInt` is. So a payload that lacks a required key does yield a dimensions value, with the
missing fields defaulted to 0, and no error. -/
theorem castDimensions_empty_payload_returns_zeros :
    (∀ toInt : String → Int,
      castDimensions toInt (Value.map []) ShapeTypeCube =
          Outcome.ret (Value.cube { LengthX := 0, HeightY := 0, WidthZ := 0 }) ∧
      castDimensions toInt (Value.map []) ShapeTypeCylinder =
          Outcome.ret (Value.cylinder { Height := 0, Radius := 0 })) ∧
    ¬ (∀ (toInt : String → Int) (shapeType : ShapeType) (entries : List (String × Value))
        (key : String),
        (shapeType = ShapeTypeCube ∧ key ∈ ["lengthX", "heightY", "widthZ"] ∨
          shapeType = ShapeTypeCylinder ∧ key ∈ ["height", "radius"]) →
        key ∉ entries.map Prod.fst →
          ∀ d, castDimensions toInt (Value.map entries) shapeType ≠ Outcome.ret d) := by
  have h1 : ∀ toInt : String → Int, castDimensions toInt (Value.map []) ShapeTypeCube =
      Outcome.ret (Value.cube { LengthX := 0, HeightY := 0, WidthZ := 0 }) := by
    intro toInt
    simp [castDimensions, castLoop, index, NewCubeDimensions]
  refine ⟨fun toInt => ⟨h1 toInt, ?_⟩, ?_⟩
  · simp [castDimensions, castLoop, index, NewCylinderDimensions, ShapeTypeCube,
      ShapeTypeCylinder]
  · intro h
    exact h (fun _ => 0) ShapeTypeCube [] "lengthX" (Or.inl ⟨rfl, by simp⟩) (by simp) _
      (h1 _)

/-- C8, at the failing input: the wire form of a `CubeDimensions`, decoded with the type
cube, makes `castDimensions` panic in the type assertion `value.(string)`; the value is not
given back, for `{10, 5, 10}` as for every other value. -/
theorem castDimensions_wire_round_trip_panics :
    ∀ (toInt : String → Int) (d : CubeDimensions),
      castDimensions toInt d.wire ShapeTypeCube =
          Outcome.panic "interface conversion: interface {} is not string" ∧
      castDimensions toInt (NewCubeDimensions 10 5 10).wire ShapeTypeCube ≠
        Outcome.ret (Value.cube (NewCubeDimensions 10 5 10)) := by
  intro toInt d
  have h : ∀ d : CubeDimensions, castDimensions toInt d.wire ShapeTypeCube =
      Outcome.panic "interface conversion: interface {} is not string" := fun _ => rfl
  refine ⟨h d, ?_⟩
  rw [h]
  intro hne
  cases hne

/-- C7, at the failing input: when the transport delivers a cube `{lengthX:4, heightY:4,
widthZ:4}` followed by a cylinder `{height:8, radius:2}`, `shapes.List` panics in
`castDimensions` on the first item, whatever is passed for the shape type, after its two
calls to the transport; no list is returned. -/
theorem shapes_List_scenario_panics :
    ∀ el : Elided,
      shapes.List el
          (stubClient (wireShape "" "" Value.nil)
            [some (wireShape "s1" ShapeTypeCube (NewCubeDimensions 4 4 4).wire),
              some (wireShape "s2" ShapeTypeCylinder (NewCylinderDimensions 8 2).wire)])
          World.start { Limit := 0 } =
        (Outcome.panic "interface conversion: interface {} is not string",
          { state := (),
            calls := [Call.newRequest "GET" "shapes" (some (Body.shapeList { Limit := 0 })),
              Call.perform] }) := by
  intro el
  rfl

end Minecraft
